import Mathlib

/-!
Shallow embedding of the Agilent PAD capture-file parser library
(`src/tools/agilent_pad/src/lib.rs`, the current version, and
`src/agilent_pad/src/lib.rs`, the older version kept in the repository).

Byte streams are modelled as `List Nat` (each element a byte value `< 256`;
theorems that depend on byte-ness carry explicit bounds).  The nom streaming
combinators used by the Rust code are modelled by `NomP`: a parser takes the
input bytes and either succeeds with the unread rest and a value (`done`),
reports that it needs exactly `n` more bytes (`incomplete n`, nom's
`Err::Incomplete(Needed::Size(n))`), or fails structurally (`error`, nom's
`Err::Error`/`Err::Failure`; the primitives used here never produce it, which
the development proves).  Rust panics (`unwrap`, `assert_eq!`, explicit
`panic!`) are modelled by the `RunResult.panic` outcome.
-/

set_option maxRecDepth 20000
set_option maxHeartbeats 2000000

/-- Outcome of running a nom streaming parser on a byte list. -/
inductive NomResult (α : Type) : Type where
  | done (rest : List Nat) (value : α)
  | incomplete (needed : Nat)
  | error
  deriving DecidableEq

/-- A nom streaming parser over byte lists. -/
abbrev NomP (α : Type) : Type := List Nat → NomResult α

instance : Monad NomP where
  pure a := fun input => .done input a
  bind p f := fun input =>
    match p input with
    | .done rest a => f a rest
    | .incomplete n => .incomplete n
    | .error => .error

theorem NomP.bind_eq {α β : Type} (p : NomP α) (f : α → NomP β) (input : List Nat) :
    (p >>= f) input =
      match p input with
      | .done rest a => f a rest
      | .incomplete n => .incomplete n
      | .error => .error := rfl

theorem NomP.pure_eq {α : Type} (a : α) (input : List Nat) :
    (pure a : NomP α) input = .done input a := rfl

/-- Common shape of nom's fixed-width streaming primitives: consume exactly
`k` bytes, computing the value with `f`; with fewer than `k` bytes available,
report `Incomplete(Needed::Size(k - available))`. -/
def fixedP {α : Type} (k : Nat) (f : List Nat → α) : NomP α := fun input =>
  if k ≤ input.length then .done (input.drop k) (f input)
  else .incomplete (k - input.length)

/-- nom `streaming::le_u16`: two bytes, little endian. -/
def leU16 : NomP Nat :=
  fixedP 2 (fun input => input.getD 0 0 + 256 * input.getD 1 0)

/-- nom `streaming::le_u32`: four bytes, little endian (also `le_u32_typed`). -/
def leU32 : NomP Nat :=
  fixedP 4 (fun input =>
    input.getD 0 0 + 256 * input.getD 1 0 + 65536 * input.getD 2 0 +
      16777216 * input.getD 3 0)

/-- nom `streaming::be_u16`: two bytes, big endian. -/
def beU16 : NomP Nat :=
  fixedP 2 (fun input => 256 * input.getD 0 0 + input.getD 1 0)

/-- nom `streaming::be_u32`: four bytes, big endian. -/
def beU32 : NomP Nat :=
  fixedP 4 (fun input =>
    16777216 * input.getD 0 0 + 65536 * input.getD 1 0 + 256 * input.getD 2 0 +
      input.getD 3 0)

/-- nom `streaming::be_u64`: eight bytes, big endian. -/
def beU64 : NomP Nat :=
  fixedP 8 (fun input =>
    72057594037927936 * input.getD 0 0 + 281474976710656 * input.getD 1 0 +
      1099511627776 * input.getD 2 0 + 4294967296 * input.getD 3 0 +
      16777216 * input.getD 4 0 + 65536 * input.getD 5 0 + 256 * input.getD 6 0 +
      input.getD 7 0)

/-- nom `streaming::take(n)`: exactly `n` raw bytes. -/
def takeP (n : Nat) : NomP (List Nat) := fixedP n (List.take n)

/-- `fn parse_string`: `length_data(be_u16)`, a 16-bit big-endian length prefix
followed by that many raw bytes. -/
def parse_string : NomP (List Nat) := beU16 >>= takeP

/-- `fn u32_hi_lo_to_u64` (both versions): `(u64::from(hi) << 32) | u64::from(lo)`.
The `checked_shl` always succeeds since the shift amount 32 is less than 64, and
with `hi, lo` coming from `u32` fields the result fits in a `u64`, so no
wrap-around modulus is needed. -/
def u32_hi_lo_to_u64 (hi lo : Nat) : Nat := (hi <<< 32) ||| lo

/-- Outcome of running a piece of Rust code that may panic. -/
inductive RunResult (α : Type) : Type where
  | ok (value : α)
  | panic
  deriving DecidableEq

/-- `struct Record` of `src/tools/agilent_pad/src/lib.rs` (current version). -/
structure Record where
  number : Nat
  data_len : Nat
  count : Nat
  timestamp_ns : Nat
  lfsr : Nat
  extra_metadata_present : Bool
  metadata_offset : Nat
  flags : Nat
  data_offset : Nat
  deriving DecidableEq

/-- `struct Record` of `src/agilent_pad/src/lib.rs` (older version): identical
wire format, but the 16-bit field after `lfsr` is interpreted as
`data_valid`/`data_valid_count` instead of
`extra_metadata_present`/`metadata_offset`. -/
structure RecordOld where
  number : Nat
  data_len : Nat
  count : Nat
  timestamp_ns : Nat
  lfsr : Nat
  data_valid : Bool
  data_valid_count : Nat
  flags : Nat
  data_offset : Nat
  deriving DecidableEq

/-- The `tuple((le_u32_typed, le_u32, ..., le_u32))` record field parser shared
by both versions of `Record::from_slice`: eleven little-endian fields in order
number(4), data_len(4), count_hi(4), count_lo(4), timestamp_hi(4),
timestamp_lo(4), lfsr(2), metadata_info(2), flags(4), data_offset_hi(4),
data_offset_lo(4). -/
def recordFields :
    NomP (Nat × Nat × Nat × Nat × Nat × Nat × Nat × Nat × Nat × Nat × Nat) := do
  let number ← leU32
  let data_len ← leU32
  let count_hi ← leU32
  let count_lo ← leU32
  let timestamp_ns_hi ← leU32
  let timestamp_ns_lo ← leU32
  let lfsr ← leU16
  let metadata_info ← leU16
  let flags ← leU32
  let data_offset_hi ← leU32
  let data_offset_lo ← leU32
  pure (number, data_len, count_hi, count_lo, timestamp_ns_hi, timestamp_ns_lo,
    lfsr, metadata_info, flags, data_offset_hi, data_offset_lo)

/-- `Record::from_slice` (current version): on parse success build the record
(`Some`), on any nom error — including `Incomplete`, which the streaming
parsers report whenever fewer than 40 bytes are available — the
`Err(e) => panic!(...)` arm runs.  Note the function has no path returning
`None`. -/
def Record.from_slice (input : List Nat) : RunResult (Option Record) :=
  match recordFields input with
  | .done _ o =>
      .ok (some
        { number := o.1
          data_len := o.2.1
          count := u32_hi_lo_to_u64 o.2.2.1 o.2.2.2.1
          timestamp_ns := u32_hi_lo_to_u64 o.2.2.2.2.1 o.2.2.2.2.2.1
          lfsr := o.2.2.2.2.2.2.1
          extra_metadata_present := (o.2.2.2.2.2.2.2.1 &&& 32768) != 0
          metadata_offset := o.2.2.2.2.2.2.2.1 &&& 32767
          flags := o.2.2.2.2.2.2.2.2.1
          data_offset := u32_hi_lo_to_u64 o.2.2.2.2.2.2.2.2.2.1 o.2.2.2.2.2.2.2.2.2.2 })
  | _ => .panic

/-- `Record::from_slice` (older version), field names `data_valid` and
`data_valid_count` for the same bit-split. -/
def RecordOld.from_slice (input : List Nat) : RunResult (Option RecordOld) :=
  match recordFields input with
  | .done _ o =>
      .ok (some
        { number := o.1
          data_len := o.2.1
          count := u32_hi_lo_to_u64 o.2.2.1 o.2.2.2.1
          timestamp_ns := u32_hi_lo_to_u64 o.2.2.2.2.1 o.2.2.2.2.2.1
          lfsr := o.2.2.2.2.2.2.1
          data_valid := (o.2.2.2.2.2.2.2.1 &&& 32768) != 0
          data_valid_count := o.2.2.2.2.2.2.2.1 &&& 32767
          flags := o.2.2.2.2.2.2.2.2.1
          data_offset := u32_hi_lo_to_u64 o.2.2.2.2.2.2.2.2.2.1 o.2.2.2.2.2.2.2.2.2.2 })
  | _ => .panic

/-- Little-endian re-encoding of a 16-bit value into its two bytes. -/
def le2 (n : Nat) : List Nat := [n % 256, n / 256 % 256]

/-- Little-endian re-encoding of a 32-bit value into its four bytes. -/
def le4 (n : Nat) : List Nat :=
  [n % 256, n / 256 % 256, n / 65536 % 256, n / 16777216 % 256]

/-- Re-encoding of a decoded `Record` into its 40-byte wire form, following the
spec's field order and bit layout (used to state the round-trip property). -/
def encodeRecord (r : Record) : List Nat :=
  le4 r.number ++ le4 r.data_len ++
    le4 (r.count / 4294967296) ++ le4 (r.count % 4294967296) ++
    le4 (r.timestamp_ns / 4294967296) ++ le4 (r.timestamp_ns % 4294967296) ++
    le2 r.lfsr ++
    le2 ((if r.extra_metadata_present then 32768 else 0) + r.metadata_offset) ++
    le4 r.flags ++
    le4 (r.data_offset / 4294967296) ++ le4 (r.data_offset % 4294967296)

/-- `struct TimestampsNs`. -/
structure TimestampsNs where
  first : Nat
  last : Nat
  stop : Nat
  trigger : Nat
  deriving DecidableEq

/-- `struct ChannelNames` (strings kept as raw byte lists; the Rust code only
runs them through the permissive `String::from_utf8_lossy`). -/
structure ChannelNames where
  a : List Nat
  b : List Nat
  deriving DecidableEq

/-- `struct CoarseTimestamp`. -/
structure CoarseTimestamp where
  hour : Nat
  minute : Nat
  millisec : Nat
  deriving DecidableEq

/-- `struct PadHeader` (strings kept as raw byte lists). -/
structure PadHeaderV where
  module_type : List Nat
  port_id : List Nat
  rx_or_tx : List Nat
  description : List Nat
  format_code : List Nat
  numbers0 : Nat × Nat
  trigger_record_number : Nat
  three : Nat
  first_record_number : Nat
  last_record_number : Nat
  record_len : Nat
  timestamp_array_size : Nat
  timestamps_ns : TimestampsNs
  guid : List Nat
  channel_names : ChannelNames
  start_time : CoarseTimestamp
  stop_time : CoarseTimestamp
  records_offset : Nat
  record_data_offset : Nat
  start : List Nat
  deriving DecidableEq

/-- The `tuple((...))` header grammar of `PadHeader::from_bufreader`
(current version; the older version's `count`-based grammar reads the same
field sequence).  nom's `tuple` runs its parsers in sequence, so the nested
tuples flatten to one monadic chain. -/
def parseHeader : NomP PadHeaderV := do
  let module_type ← parse_string
  let port_id ← parse_string
  let rx_or_tx ← parse_string
  let description ← parse_string
  let format_code ← parse_string
  let numbers0a ← beU32
  let numbers0b ← beU32
  let trigger_record_number ← beU32
  let three ← beU32
  let first_record_number ← beU32
  let last_record_number ← beU32
  let record_len ← beU32
  let timestamp_array_size ← beU32
  let ts_first ← beU64
  let ts_last ← beU64
  let ts_stop ← beU64
  let ts_trigger ← beU64
  let guid ← parse_string
  let channel_a ← parse_string
  let channel_b ← parse_string
  let st_hour ← beU16
  let st_minute ← beU16
  let st_millisec ← beU16
  let sp_hour ← beU16
  let sp_minute ← beU16
  let sp_millisec ← beU16
  let records_offset ← beU64
  let record_data_offset ← beU64
  let start ← parse_string
  pure
    { module_type, port_id, rx_or_tx, description, format_code
      numbers0 := (numbers0a, numbers0b)
      trigger_record_number, three, first_record_number, last_record_number
      record_len, timestamp_array_size
      timestamps_ns := ⟨ts_first, ts_last, ts_stop, ts_trigger⟩
      guid
      channel_names := ⟨channel_a, channel_b⟩
      start_time := ⟨st_hour, st_minute, st_millisec⟩
      stop_time := ⟨sp_hour, sp_minute, sp_millisec⟩
      records_offset, record_data_offset, start }

/-- Observable outcome of one run of the `PadHeader::from_bufreader` loop:
a decoded header together with the unconsumed rest of the final working buffer
and the stream position after the final (successful) `read_exact`; or a
malformed-input failure (`_ => return None`); or a failed `read_exact`
(`.unwrap()` panic) once the buffer outgrows the source. -/
inductive LoopResult : Type where
  | success (value : PadHeaderV) (rest : List Nat) (endPos : Nat)
  | malformed
  | readFailure
  deriving DecidableEq

/-- The probe/retry growth loop of `PadHeader::from_bufreader`, started at
absolute stream position `pos`.  One iteration: grow the buffer from `bufLen`
to `bufLen + expand` bytes, `read_exact` that many bytes from position `pos`
(each retry first rewound the stream by exactly the old buffer length, so
every read starts at `pos`), and attempt the parse from byte 0 of the buffer.
On `Incomplete(Needed::Size(n))` the stream is rewound and the loop retries
with `expand = n`.  The Rust loop is unbounded; termination is expressed by
running it with explicit `fuel` and proving that `source.length + 2` units of
fuel always suffice. -/
def headerLoopFuel (source : List Nat) (pos : Nat) :
    Nat → Nat → Nat → Option LoopResult
  | 0, _, _ => none
  | fuel + 1, bufLen, expand =>
    if pos + (bufLen + expand) ≤ source.length then
      match parseHeader ((source.drop pos).take (bufLen + expand)) with
      | .done rest v => some (.success v rest (pos + (bufLen + expand)))
      | .error => some .malformed
      | .incomplete n => headerLoopFuel source pos fuel (bufLen + expand) n
    else some .readFailure

/-- `PadHeader::from_bufreader`, reading from absolute position `pos` of
`source`; the fuel bound `source.length + 2` is proved sufficient. -/
def PadHeader.from_bufreader (source : List Nat) (pos : Nat) : Option LoopResult :=
  headerLoopFuel source pos (source.length + 2) 0 0

/-- Iterator state of `struct Records`: expected record number `curr`, bound
`last`, and the absolute position of its owned cursor. -/
structure RecState where
  curr : Nat
  last : Nat
  pos : Nat
  deriving DecidableEq

/-- `<Records as Iterator>::next`.  `curr` and `last` are `u32`, so the
increments wrap modulo 2^32 (release-mode semantics; all theorems that could
be affected assume `last < u32::MAX`, where both Rust build modes agree). -/
def Records.next (source : List Nat) (s : RecState) :
    RunResult (Option Record × RecState) :=
  if s.last < s.curr then .ok (none, s)
  else if s.pos + 40 ≤ source.length then
    if ((source.drop s.pos).take 40).all (· == 0) then
      .ok (none, { curr := (s.last + 1) % 4294967296, last := s.last, pos := s.pos + 40 })
    else
      match Record.from_slice ((source.drop s.pos).take 40) with
      | .ok (some r) =>
          if r.number = s.curr then
            .ok (some r, { curr := (s.curr + 1) % 4294967296, last := s.last, pos := s.pos + 40 })
          else .panic
      | _ => .panic
  else .panic

/-- Driver that pulls up to `fuel` records from the stream, collecting the
yielded records and the state at which `next` returned `None`. -/
def runRecords (source : List Nat) : Nat → RecState → RunResult (List Record × RecState)
  | 0, s => .ok ([], s)
  | fuel + 1, s =>
    match Records.next source s with
    | .panic => .panic
    | .ok (none, s1) => .ok ([], s1)
    | .ok (some r, s1) =>
      match runRecords source fuel s1 with
      | .panic => .panic
      | .ok (rs, s2) => .ok (r :: rs, s2)

/-- State of `struct RecordReader`: the absolute position of its owned data
cursor and the `curr_data_offset: i64` bookkeeping field. -/
structure RecordReaderState where
  pos : Nat
  curr_data_offset : Int
  deriving DecidableEq

/-- The relative seek delta computed by `RecordReader::get_data_for_record`:
`record.data_offset as i64 - self.curr_data_offset`. -/
def RecordReader.seek_delta (rr : RecordReaderState) (record : Record) : Int :=
  (record.data_offset : Int) - rr.curr_data_offset

/-- The read length chosen by `RecordReader::get_data_for_record` (current
version): `record.metadata_offset` when `exclude_metadata && metadata_offset > 0`,
else `record.data_len`. -/
def RecordReader.data_read_len (record : Record) (exclude_metadata : Bool) : Nat :=
  if exclude_metadata = true ∧ 0 < record.metadata_offset then record.metadata_offset
  else record.data_len

/-- The read length chosen by `RecordReader::get_data_for_record` (older
version): `record.data_valid_count` when `valid_only && record.data_valid`,
else `record.data_len`. -/
def RecordReaderOld.data_read_len (record : RecordOld) (valid_only : Bool) : Nat :=
  if valid_only = true ∧ record.data_valid = true then record.data_valid_count
  else record.data_len

/-- `RecordReader::get_data_for_record` (current version): relative seek by
`seek_delta`, read `data_read_len` bytes, update `curr_data_offset` to
`record.data_offset + buf.len()`.  A seek to a negative absolute position or a
short read makes the corresponding `.unwrap()` panic. -/
def RecordReader.get_data_for_record (source : List Nat) (rr : RecordReaderState)
    (record : Record) (exclude_metadata : Bool) :
    RunResult (List Nat × RecordReaderState) :=
  let newPos : Int := (rr.pos : Int) + RecordReader.seek_delta rr record
  if newPos < 0 then .panic
  else
    let np := newPos.toNat
    let len := RecordReader.data_read_len record exclude_metadata
    if np + len ≤ source.length then
      .ok ((source.drop np).take len,
        { pos := np + len, curr_data_offset := (record.data_offset : Int) + (len : Int) })
    else .panic

/-- `PadFile` as constructed by `PadFile::from_filename`. -/
structure PadFileState where
  header : PadHeaderV
  records : RecState
  record_reader : RecordReaderState
  deriving DecidableEq

/-- `PadFile::from_filename`.  The file is `none` when `File::open` fails (both
opens fail identically), in which case the `Err(e)` is returned; otherwise the
header is parsed (`.unwrap()` panics on `None` or on a read failure), the
`record_len == 40` / `timestamp_array_size == 8` assertions run, the two
cursors are seeked to `records_offset` and `record_data_offset`, and the
`RecordReader` is built with `curr_data_offset: 0`. -/
def PadFile.from_filename (file : Option (List Nat)) :
    RunResult (Except Unit PadFileState) :=
  match file with
  | none => .ok (.error ())
  | some source =>
    match PadHeader.from_bufreader source 0 with
    | some (.success h _ _) =>
      if h.record_len = 40 then
        if h.timestamp_array_size = 8 then
          .ok (.ok
            { header := h
              records := { curr := h.first_record_number, last := h.last_record_number,
                           pos := h.records_offset }
              record_reader := { pos := h.record_data_offset, curr_data_offset := 0 } })
        else .panic
      else .panic
    | _ => .panic

/-!
Concrete sample capture files used by the end-to-end theorems: a header (all
strings empty, 110 bytes) declaring `first_record_number = 1`,
`record_len = 40`, `timestamp_array_size = 8`, `records_offset = 110` and
`record_data_offset = 270`, followed by three well-formed records numbered
1, 2, 3, a 40-zero-byte sentinel block, and 12 bytes of payload data.
`sampleSource` declares `last_record_number = 3`, `sampleSource2` declares
`last_record_number = 5` (so its sentinel is reached early).
-/

/-- Header bytes (big-endian fields, all strings empty) with the given
`last_record_number`. -/
def sampleHeaderBytes (lastRec : Nat) : List Nat :=
  [0,0, 0,0, 0,0, 0,0, 0,0] ++ List.replicate 8 0 ++ [0,0,0,0] ++ [0,0,0,0] ++
    [0,0,0,1] ++ [0,0,0,lastRec] ++ [0,0,0,40] ++ [0,0,0,8] ++ List.replicate 32 0 ++
    [0,0] ++ [0,0, 0,0] ++ List.replicate 12 0 ++ [0,0,0,0,0,0,0,110] ++
    [0,0,0,0,0,0,1,14] ++ [0,0]

/-- One 40-byte record (little-endian fields) with record number `num`,
`data_len = 4`, `data_offset = dofflo`, everything else zero. -/
def recBytes (num dofflo : Nat) : List Nat :=
  [num,0,0,0] ++ [4,0,0,0] ++ List.replicate 16 0 ++ [0,0] ++ [0,0] ++ [0,0,0,0] ++
    [0,0,0,0] ++ [dofflo,0,0,0]

/-- Sample capture file, `last_record_number = 3`: 282 bytes. -/
def sampleSource : List Nat :=
  sampleHeaderBytes 3 ++ recBytes 1 0 ++ recBytes 2 4 ++ recBytes 3 8 ++
    List.replicate 40 0 ++ [1,2,3,4,5,6,7,8,9,10,11,12]

/-- Sample capture file, `last_record_number = 5` but still only three records
before the sentinel. -/
def sampleSource2 : List Nat :=
  sampleHeaderBytes 5 ++ recBytes 1 0 ++ recBytes 2 4 ++ recBytes 3 8 ++
    List.replicate 40 0 ++ [1,2,3,4,5,6,7,8,9,10,11,12]

/-- The header decoded from `sampleHeaderBytes 3`. -/
def sampleHeaderV : PadHeaderV :=
  { module_type := [], port_id := [], rx_or_tx := [], description := [], format_code := []
    numbers0 := (0, 0), trigger_record_number := 0, three := 0
    first_record_number := 1, last_record_number := 3, record_len := 40
    timestamp_array_size := 8, timestamps_ns := ⟨0, 0, 0, 0⟩, guid := []
    channel_names := ⟨[], []⟩, start_time := ⟨0, 0, 0⟩, stop_time := ⟨0, 0, 0⟩
    records_offset := 110, record_data_offset := 270, start := [] }

/-- The header decoded from `sampleHeaderBytes 5`. -/
def sampleHeaderV2 : PadHeaderV :=
  { sampleHeaderV with last_record_number := 5 }

/-- The `PadFile` state produced by `PadFile::from_filename` on `sampleSource`. -/
def samplePadFile : PadFileState :=
  { header := sampleHeaderV, records := ⟨1, 3, 110⟩, record_reader := ⟨270, 0⟩ }

/-- The `PadFile` state produced by `PadFile::from_filename` on `sampleSource2`. -/
def samplePadFile2 : PadFileState :=
  { header := sampleHeaderV2, records := ⟨1, 5, 110⟩, record_reader := ⟨270, 0⟩ }

/-- The record decoded from `recBytes 1 0`. -/
def sampleRec1 : Record :=
  { number := 1, data_len := 4, count := 0, timestamp_ns := 0, lfsr := 0
    extra_metadata_present := false, metadata_offset := 0, flags := 0, data_offset := 0 }

/-- The record decoded from `recBytes 2 4`. -/
def sampleRec2 : Record :=
  { sampleRec1 with number := 2, data_offset := 4 }

/-- The record decoded from `recBytes 3 8`. -/
def sampleRec3 : Record :=
  { sampleRec1 with number := 3, data_offset := 8 }

/-!  Fixed-size parsers: the record grammar consumes exactly 40 bytes. -/

/-- A parser that consumes exactly `k` bytes: it succeeds (consuming `k`
bytes) whenever at least `k` bytes are available and reports `incomplete`
otherwise. -/
def NomSized {α : Type} (p : NomP α) (k : Nat) : Prop :=
  ∀ input : List Nat,
    (k ≤ input.length → ∃ v, p input = .done (input.drop k) v) ∧
    (input.length < k → ∃ n, p input = .incomplete n)

theorem nomSized_leU16 : NomSized leU16 2 := by
  intro input
  constructor
  · intro h
    exact ⟨input.getD 0 0 + 256 * input.getD 1 0, by simp [leU16, fixedP, h]⟩
  · intro h
    exact ⟨2 - input.length, by simp [leU16, fixedP, Nat.not_le.mpr h]⟩

theorem nomSized_leU32 : NomSized leU32 4 := by
  intro input
  constructor
  · intro h
    exact ⟨input.getD 0 0 + 256 * input.getD 1 0 + 65536 * input.getD 2 0 +
      16777216 * input.getD 3 0, by simp [leU32, fixedP, h]⟩
  · intro h
    exact ⟨4 - input.length, by simp [leU32, fixedP, Nat.not_le.mpr h]⟩

theorem nomSized_pure {α : Type} (a : α) : NomSized (pure a) 0 := by
  intro input
  exact ⟨fun _ => ⟨a, by simp [NomP.pure_eq]⟩, fun h => by omega⟩

theorem nomSized_bind {α β : Type} {p : NomP α} {f : α → NomP β} {k₁ k₂ : Nat}
    (hp : NomSized p k₁) (hf : ∀ a, NomSized (f a) k₂) :
    NomSized (p >>= f) (k₁ + k₂) := by
  intro input
  constructor
  · intro h
    obtain ⟨v, hv⟩ := (hp input).1 (by omega)
    obtain ⟨w, hw⟩ := (hf v (input.drop k₁)).1 (by simp; omega)
    refine ⟨w, ?_⟩
    simp only [NomP.bind_eq, hv]
    rw [hw, List.drop_drop]
  · intro h
    by_cases h1 : k₁ ≤ input.length
    · obtain ⟨v, hv⟩ := (hp input).1 h1
      obtain ⟨n, hn⟩ := (hf v (input.drop k₁)).2 (by simp; omega)
      refine ⟨n, ?_⟩
      simp only [NomP.bind_eq, hv]
      exact hn
    · obtain ⟨n, hn⟩ := (hp input).2 (by omega)
      refine ⟨n, ?_⟩
      simp only [NomP.bind_eq, hn]

theorem nomSized_recordFields : NomSized recordFields 40 := by
  have h : NomSized recordFields
      (4 + (4 + (4 + (4 + (4 + (4 + (2 + (2 + (4 + (4 + (4 + 0))))))))))) := by
    unfold recordFields
    refine nomSized_bind nomSized_leU32 fun _ => ?_
    refine nomSized_bind nomSized_leU32 fun _ => ?_
    refine nomSized_bind nomSized_leU32 fun _ => ?_
    refine nomSized_bind nomSized_leU32 fun _ => ?_
    refine nomSized_bind nomSized_leU32 fun _ => ?_
    refine nomSized_bind nomSized_leU32 fun _ => ?_
    refine nomSized_bind nomSized_leU16 fun _ => ?_
    refine nomSized_bind nomSized_leU16 fun _ => ?_
    refine nomSized_bind nomSized_leU32 fun _ => ?_
    refine nomSized_bind nomSized_leU32 fun _ => ?_
    refine nomSized_bind nomSized_leU32 fun _ => ?_
    exact nomSized_pure _
  exact h

/-- Claim C8: `Record::from_slice` never returns `None`.  For every input of
length at least 40 it returns `Some(record)` (all eleven fixed-width
little-endian reads succeed on 40 available bytes, so the error arm is
unreachable), and for every input shorter than 40 bytes the streaming parsers
report `Incomplete`, which the `Err(e) => panic!` arm turns into a panic
(divergence) rather than a `None` return, despite the `Option` return type. -/
theorem record_from_slice_never_none :
    (∀ input : List Nat, 40 ≤ input.length →
        ∃ r : Record, Record.from_slice input = .ok (some r)) ∧
    (∀ input : List Nat, input.length < 40 → Record.from_slice input = .panic) ∧
    (∀ input : List Nat, Record.from_slice input ≠ .ok none) := by
  refine ⟨fun input h => ?_, fun input h => ?_, fun input => ?_⟩
  · obtain ⟨v, hv⟩ := (nomSized_recordFields input).1 h
    refine ⟨{ number := v.1, data_len := v.2.1, count := u32_hi_lo_to_u64 v.2.2.1 v.2.2.2.1
              timestamp_ns := u32_hi_lo_to_u64 v.2.2.2.2.1 v.2.2.2.2.2.1
              lfsr := v.2.2.2.2.2.2.1
              extra_metadata_present := (v.2.2.2.2.2.2.2.1 &&& 32768) != 0
              metadata_offset := v.2.2.2.2.2.2.2.1 &&& 32767
              flags := v.2.2.2.2.2.2.2.2.1
              data_offset := u32_hi_lo_to_u64 v.2.2.2.2.2.2.2.2.2.1 v.2.2.2.2.2.2.2.2.2.2 }, ?_⟩
    simp only [Record.from_slice, hv]
  · obtain ⟨n, hn⟩ := (nomSized_recordFields input).2 h
    simp only [Record.from_slice, hn]
  · cases h : recordFields input <;> simp [Record.from_slice, h]

/-! Well-behavedness of the nom streaming combinators: no structural errors,
positive `Incomplete` deficits, determinism under input extension, and the
exact-growth property that drives the header loop. -/

theorem NomP.bind_done {α β : Type} {p : NomP α} (f : α → NomP β) {input rest : List Nat}
    {a : α} (h : p input = .done rest a) : (p >>= f) input = f a rest := by
  rw [NomP.bind_eq, h]

theorem NomP.bind_incomplete {α β : Type} {p : NomP α} (f : α → NomP β)
    {input : List Nat} {n : Nat} (h : p input = .incomplete n) :
    (p >>= f) input = .incomplete n := by
  rw [NomP.bind_eq, h]

theorem NomP.bind_error {α β : Type} {p : NomP α} (f : α → NomP β) {input : List Nat}
    (h : p input = .error) : (p >>= f) input = .error := by
  rw [NomP.bind_eq, h]

/-- Laws shared by all parsers appearing in the header grammar.  `no_error`:
the parser never reports a structural error.  `needed_pos`: reported deficits
are at least one byte (nom's `Needed::Size` holds a `NonZeroUsize`).
`rest_le`: the unread rest is never longer than the input.  `ext`: a
successful parse is stable under appending bytes (streaming parsers only look
at what they consume).  `grow`: after appending exactly the reported deficit,
the parser either succeeds consuming the whole input or asks for more. -/
structure NomLawful {α : Type} (p : NomP α) : Prop where
  no_error : ∀ input, p input ≠ .error
  needed_pos : ∀ input n, p input = .incomplete n → 1 ≤ n
  rest_le : ∀ input rest v, p input = .done rest v → rest.length ≤ input.length
  ext : ∀ input extra rest v, p input = .done rest v →
    p (input ++ extra) = .done (rest ++ extra) v
  grow : ∀ input extra n, p input = .incomplete n → extra.length = n →
    (∃ v, p (input ++ extra) = .done [] v) ∨ (∃ m, p (input ++ extra) = .incomplete m)

theorem nomLawful_fixedP {α : Type} (k : Nat) (f : List Nat → α)
    (hf : ∀ input extra, k ≤ input.length → f (input ++ extra) = f input) :
    NomLawful (fixedP k f) := by
  constructor
  · intro input
    unfold fixedP
    split <;> simp
  · intro input n h
    unfold fixedP at h
    split at h <;> simp_all
    omega
  · intro input rest v h
    unfold fixedP at h
    split at h
    · simp only [NomResult.done.injEq] at h
      obtain ⟨hrest, _⟩ := h
      subst hrest
      simp
    · simp at h
  · intro input extra rest v h
    unfold fixedP at h ⊢
    split at h
    · rename_i hk
      simp only [NomResult.done.injEq] at h
      obtain ⟨hrest, hval⟩ := h
      subst hrest
      subst hval
      rw [if_pos (by simp; omega), List.drop_append_of_le_length hk, hf input extra hk]
    · simp at h
  · intro input extra n h hlen
    unfold fixedP at h ⊢
    split at h
    · simp at h
    · rename_i hk
      simp only [NomResult.incomplete.injEq] at h
      left
      refine ⟨f (input ++ extra), ?_⟩
      rw [if_pos (by simp; omega), List.drop_eq_nil_of_le (by simp; omega)]

theorem nomLawful_leU16 : NomLawful leU16 :=
  nomLawful_fixedP 2 _ (by
    intro input extra hk
    rw [List.getD_append _ _ _ _ (by omega), List.getD_append _ _ _ _ (by omega)])

theorem nomLawful_leU32 : NomLawful leU32 :=
  nomLawful_fixedP 4 _ (by
    intro input extra hk
    rw [List.getD_append _ _ _ _ (by omega), List.getD_append _ _ _ _ (by omega),
      List.getD_append _ _ _ _ (by omega), List.getD_append _ _ _ _ (by omega)])

theorem nomLawful_beU16 : NomLawful beU16 :=
  nomLawful_fixedP 2 _ (by
    intro input extra hk
    rw [List.getD_append _ _ _ _ (by omega), List.getD_append _ _ _ _ (by omega)])

theorem nomLawful_beU32 : NomLawful beU32 :=
  nomLawful_fixedP 4 _ (by
    intro input extra hk
    rw [List.getD_append _ _ _ _ (by omega), List.getD_append _ _ _ _ (by omega),
      List.getD_append _ _ _ _ (by omega), List.getD_append _ _ _ _ (by omega)])

theorem nomLawful_beU64 : NomLawful beU64 :=
  nomLawful_fixedP 8 _ (by
    intro input extra hk
    rw [List.getD_append _ _ _ _ (by omega), List.getD_append _ _ _ _ (by omega),
      List.getD_append _ _ _ _ (by omega), List.getD_append _ _ _ _ (by omega),
      List.getD_append _ _ _ _ (by omega), List.getD_append _ _ _ _ (by omega),
      List.getD_append _ _ _ _ (by omega), List.getD_append _ _ _ _ (by omega)])

theorem nomLawful_takeP (n : Nat) : NomLawful (takeP n) :=
  nomLawful_fixedP n _ (fun _ _ hk => List.take_append_of_le_length hk)

theorem nomLawful_pure {α : Type} (a : α) : NomLawful (pure a : NomP α) := by
  constructor
  · intro input
    simp [NomP.pure_eq]
  · intro input n h
    simp [NomP.pure_eq] at h
  · intro input rest v h
    simp only [NomP.pure_eq, NomResult.done.injEq] at h
    obtain ⟨hrest, _⟩ := h
    subst hrest
    exact Nat.le_refl _
  · intro input extra rest v h
    simp only [NomP.pure_eq, NomResult.done.injEq] at h
    obtain ⟨hrest, hval⟩ := h
    subst hrest
    subst hval
    simp [NomP.pure_eq]
  · intro _ _ n h
    simp [NomP.pure_eq] at h

theorem nomLawful_bind {α β : Type} {p : NomP α} {f : α → NomP β}
    (hp : NomLawful p) (hf : ∀ a, NomLawful (f a)) : NomLawful (p >>= f) := by
  constructor
  · intro input
    cases hpi : p input with
    | done rest a =>
      rw [NomP.bind_done f hpi]
      exact (hf a).no_error rest
    | incomplete n =>
      rw [NomP.bind_incomplete f hpi]
      simp
    | error => exact absurd hpi (hp.no_error input)
  · intro input n h
    cases hpi : p input with
    | done rest a =>
      rw [NomP.bind_done f hpi] at h
      exact (hf a).needed_pos _ _ h
    | incomplete m =>
      rw [NomP.bind_incomplete f hpi] at h
      simp only [NomResult.incomplete.injEq] at h
      subst h
      exact hp.needed_pos _ _ hpi
    | error => exact absurd hpi (hp.no_error input)
  · intro input rest v h
    cases hpi : p input with
    | done rest1 a =>
      rw [NomP.bind_done f hpi] at h
      exact Nat.le_trans ((hf a).rest_le _ _ _ h) (hp.rest_le _ _ _ hpi)
    | incomplete m =>
      rw [NomP.bind_incomplete f hpi] at h
      simp at h
    | error => exact absurd hpi (hp.no_error input)
  · intro input extra rest v h
    cases hpi : p input with
    | done rest1 a =>
      rw [NomP.bind_done f hpi] at h
      rw [NomP.bind_done f (hp.ext input extra rest1 a hpi)]
      exact (hf a).ext rest1 extra rest v h
    | incomplete m =>
      rw [NomP.bind_incomplete f hpi] at h
      simp at h
    | error => exact absurd hpi (hp.no_error input)
  · intro input extra n h hlen
    cases hpi : p input with
    | done rest1 a =>
      rw [NomP.bind_done f hpi] at h
      have hext := hp.ext input extra rest1 a hpi
      cases (hf a).grow rest1 extra n h hlen with
      | inl hdone =>
        obtain ⟨w, hw⟩ := hdone
        exact Or.inl ⟨w, by rw [NomP.bind_done f hext]; exact hw⟩
      | inr hinc =>
        obtain ⟨m, hm⟩ := hinc
        exact Or.inr ⟨m, by rw [NomP.bind_done f hext]; exact hm⟩
    | incomplete m =>
      rw [NomP.bind_incomplete f hpi] at h
      simp only [NomResult.incomplete.injEq] at h
      subst h
      cases hp.grow input extra m hpi hlen with
      | inl hdone =>
        obtain ⟨w, hw⟩ := hdone
        cases hfw : f w [] with
        | done rest2 b =>
          have h2 := (hf w).rest_le _ _ _ hfw
          have hrest2 : rest2 = [] := by simpa using h2
          subst hrest2
          exact Or.inl ⟨b, by rw [NomP.bind_done f hw]; exact hfw⟩
        | incomplete k =>
          exact Or.inr ⟨k, by rw [NomP.bind_done f hw]; exact hfw⟩
        | error => exact absurd hfw ((hf w).no_error [])
      | inr hinc =>
        obtain ⟨k, hk⟩ := hinc
        exact Or.inr ⟨k, NomP.bind_incomplete f hk⟩
    | error => exact absurd hpi (hp.no_error input)

theorem nomLawful_parse_string : NomLawful parse_string :=
  nomLawful_bind nomLawful_beU16 nomLawful_takeP

theorem nomLawful_parseHeader : NomLawful parseHeader := by
  unfold parseHeader
  refine nomLawful_bind nomLawful_parse_string fun _ => ?_
  refine nomLawful_bind nomLawful_parse_string fun _ => ?_
  refine nomLawful_bind nomLawful_parse_string fun _ => ?_
  refine nomLawful_bind nomLawful_parse_string fun _ => ?_
  refine nomLawful_bind nomLawful_parse_string fun _ => ?_
  refine nomLawful_bind nomLawful_beU32 fun _ => ?_
  refine nomLawful_bind nomLawful_beU32 fun _ => ?_
  refine nomLawful_bind nomLawful_beU32 fun _ => ?_
  refine nomLawful_bind nomLawful_beU32 fun _ => ?_
  refine nomLawful_bind nomLawful_beU32 fun _ => ?_
  refine nomLawful_bind nomLawful_beU32 fun _ => ?_
  refine nomLawful_bind nomLawful_beU32 fun _ => ?_
  refine nomLawful_bind nomLawful_beU32 fun _ => ?_
  refine nomLawful_bind nomLawful_beU64 fun _ => ?_
  refine nomLawful_bind nomLawful_beU64 fun _ => ?_
  refine nomLawful_bind nomLawful_beU64 fun _ => ?_
  refine nomLawful_bind nomLawful_beU64 fun _ => ?_
  refine nomLawful_bind nomLawful_parse_string fun _ => ?_
  refine nomLawful_bind nomLawful_parse_string fun _ => ?_
  refine nomLawful_bind nomLawful_parse_string fun _ => ?_
  refine nomLawful_bind nomLawful_beU16 fun _ => ?_
  refine nomLawful_bind nomLawful_beU16 fun _ => ?_
  refine nomLawful_bind nomLawful_beU16 fun _ => ?_
  refine nomLawful_bind nomLawful_beU16 fun _ => ?_
  refine nomLawful_bind nomLawful_beU16 fun _ => ?_
  refine nomLawful_bind nomLawful_beU16 fun _ => ?_
  refine nomLawful_bind nomLawful_beU64 fun _ => ?_
  refine nomLawful_bind nomLawful_beU64 fun _ => ?_
  refine nomLawful_bind nomLawful_parse_string fun _ => ?_
  exact nomLawful_pure _

/-! The header growth loop: termination, full consumption on success, and the
unreachability of the malformed outcome. -/

theorem headerLoopFuel_total (source : List Nat) (pos : Nat) :
    ∀ fuel bufLen expand, source.length + 2 ≤ fuel + pos + bufLen + expand →
      1 ≤ fuel → ∃ r, headerLoopFuel source pos fuel bufLen expand = some r := by
  intro fuel
  induction fuel with
  | zero => omega
  | succ f ih =>
    intro bufLen expand hb _
    unfold headerLoopFuel
    by_cases hg : pos + (bufLen + expand) ≤ source.length
    · rw [if_pos hg]
      cases hp : parseHeader ((source.drop pos).take (bufLen + expand)) with
      | done rest v => exact ⟨_, rfl⟩
      | error => exact ⟨_, rfl⟩
      | incomplete n =>
        have hn := nomLawful_parseHeader.needed_pos _ _ hp
        exact ih (bufLen + expand) n (by omega) (by omega)
    · rw [if_neg hg]
      exact ⟨_, rfl⟩

/-- Claim C3: for every finite byte source (and any start position), the
probe/retry loop of `PadHeader::from_bufreader` terminates: every retry grows
the working buffer by the reported deficit, which is at least one byte
(`nomLawful_parseHeader.needed_pos`), each retry rewinds to the start
position and re-reads the whole buffer, and once the buffer would outgrow the
source the `read_exact` fails; hence `source.length + 2` loop iterations
always suffice to reach a decoded header, a malformed-input failure, or a
read failure. -/
theorem from_bufreader_terminates (source : List Nat) (pos : Nat) :
    ∃ r : LoopResult, PadHeader.from_bufreader source pos = some r :=
  headerLoopFuel_total source pos (source.length + 2) 0 0 (by omega) (by omega)

theorem headerLoopFuel_success_rest (source : List Nat) (pos : Nat) :
    ∀ fuel bufLen expand,
      (bufLen = 0 ∧ expand = 0 ∨
        parseHeader ((source.drop pos).take bufLen) = .incomplete expand) →
      ∀ v rest endPos,
        headerLoopFuel source pos fuel bufLen expand = some (.success v rest endPos) →
        rest = [] := by
  intro fuel
  induction fuel with
  | zero =>
    intro bufLen expand _ v rest endPos h
    simp [headerLoopFuel] at h
  | succ f ih =>
    intro bufLen expand hinv v rest endPos h
    unfold headerLoopFuel at h
    by_cases hg : pos + (bufLen + expand) ≤ source.length
    · rw [if_pos hg] at h
      cases hp : parseHeader ((source.drop pos).take (bufLen + expand)) with
      | done rest1 v1 =>
        rw [hp] at h
        simp only [Option.some.injEq, LoopResult.success.injEq] at h
        obtain ⟨_, hrest, _⟩ := h
        subst hrest
        cases hinv with
        | inl hzero =>
          obtain ⟨hb, he⟩ := hzero
          subst hb; subst he
          have := nomLawful_parseHeader.rest_le _ _ _ hp
          simpa using this
        | inr hinc =>
          have hsplit : (source.drop pos).take (bufLen + expand) =
              (source.drop pos).take bufLen ++
                ((source.drop pos).drop bufLen).take expand :=
            List.take_add _ _ _
          have hmidlen : (((source.drop pos).drop bufLen).take expand).length = expand := by
            simp
            omega
          cases nomLawful_parseHeader.grow _ _ _ hinc hmidlen with
          | inl hdone =>
            obtain ⟨w, hw⟩ := hdone
            rw [← hsplit] at hw
            rw [hp] at hw
            simp only [NomResult.done.injEq] at hw
            exact hw.1
          | inr hincm =>
            obtain ⟨m, hm⟩ := hincm
            rw [← hsplit, hp] at hm
            simp at hm
      | error =>
        rw [hp] at h
        simp at h
      | incomplete n =>
        rw [hp] at h
        exact ih (bufLen + expand) n (Or.inr hp) v rest endPos h
    · rw [if_neg hg] at h
      simp at h

/-- Claim C4: whenever the header loop (started as `from_bufreader` starts it,
with an empty buffer) succeeds, the final parse attempt consumes the entire
working buffer — the leftover `rest` is empty — because each growth step
enlarged the buffer by exactly the reported deficit.  The recorded `endPos`
is `pos` plus the final buffer length, so with `rest = []` the source
position after the call is exactly one byte past the last byte of the
header. -/
theorem from_bufreader_consumes_buffer (fuel : Nat) (source : List Nat) (pos : Nat)
    (v : PadHeaderV) (rest : List Nat) (endPos : Nat)
    (h : headerLoopFuel source pos fuel 0 0 = some (.success v rest endPos)) :
    rest = [] :=
  headerLoopFuel_success_rest source pos fuel 0 0 (Or.inl ⟨rfl, rfl⟩) v rest endPos h

theorem headerLoopFuel_no_malformed (source : List Nat) (pos : Nat) :
    ∀ fuel bufLen expand, headerLoopFuel source pos fuel bufLen expand ≠ some .malformed := by
  intro fuel
  induction fuel with
  | zero =>
    intro bufLen expand h
    simp [headerLoopFuel] at h
  | succ f ih =>
    intro bufLen expand h
    unfold headerLoopFuel at h
    by_cases hg : pos + (bufLen + expand) ≤ source.length
    · rw [if_pos hg] at h
      cases hp : parseHeader ((source.drop pos).take (bufLen + expand)) with
      | done rest1 v1 => rw [hp] at h; simp at h
      | error => exact absurd hp (nomLawful_parseHeader.no_error _)
      | incomplete n => rw [hp] at h; exact ih _ _ h
    · rw [if_neg hg] at h
      simp at h

/-- Claim C7: `PadFile::from_filename` returns the error value (`Err(e)` from
`File::open`) when the file cannot be opened, and never any partial
`CaptureFile`.  The "header structurally malformed" case of the contract is
vacuous for this grammar: the nom combinators in `PadHeader::from_bufreader`
can only report `Incomplete`, never `Err::Error`/`Err::Failure`, so the
`_ => return None` arm (and with it a rejected file with no partial header)
is unreachable, as the second and third conjuncts state. -/
theorem from_filename_error_taxonomy :
    PadFile.from_filename none = .ok (.error ()) ∧
    (∀ input : List Nat, parseHeader input ≠ .error) ∧
    (∀ source : List Nat, ∀ pos fuel bufLen expand : Nat,
      headerLoopFuel source pos fuel bufLen expand ≠ some .malformed) :=
  ⟨rfl, nomLawful_parseHeader.no_error,
    fun source pos fuel bufLen expand =>
      headerLoopFuel_no_malformed source pos fuel bufLen expand⟩

/-! The record stream: bound check, sentinel handling, fusedness. -/

theorem records_next_stop (source : List Nat) (s : RecState) (h : s.last < s.curr) :
    Records.next source s = .ok (none, s) := by
  unfold Records.next
  rw [if_pos h]

theorem records_next_sentinel_eq (source : List Nat) (s : RecState)
    (h1 : ¬ s.last < s.curr) (h2 : s.pos + 40 ≤ source.length)
    (h3 : ((source.drop s.pos).take 40).all (· == 0) = true) :
    Records.next source s =
      .ok (none, { curr := (s.last + 1) % 4294967296, last := s.last, pos := s.pos + 40 }) := by
  unfold Records.next
  rw [if_neg h1, if_pos h2, if_pos h3]

/-- Any way `next` can return `None`: either the bound check fired (state
unchanged) or the sentinel was read (expected number set past the bound). -/
theorem records_next_none_cases (source : List Nat) (s s1 : RecState)
    (h : Records.next source s = .ok (none, s1)) :
    (s.last < s.curr ∧ s1 = s) ∨
      (¬ s.last < s.curr ∧
        s1 = { curr := (s.last + 1) % 4294967296, last := s.last, pos := s.pos + 40 }) := by
  unfold Records.next at h
  by_cases h1 : s.last < s.curr
  · rw [if_pos h1] at h
    simp only [RunResult.ok.injEq, Prod.mk.injEq] at h
    exact Or.inl ⟨h1, h.2.symm⟩
  · rw [if_neg h1] at h
    by_cases h2 : s.pos + 40 ≤ source.length
    · rw [if_pos h2] at h
      by_cases h3 : ((source.drop s.pos).take 40).all (· == 0)
      · rw [if_pos h3] at h
        simp only [RunResult.ok.injEq, Prod.mk.injEq] at h
        exact Or.inr ⟨h1, h.2.symm⟩
      · rw [if_neg h3] at h
        split at h
        · split at h <;> simp at h
        · simp at h
    · rw [if_neg h2] at h
      simp at h

/-- Claim C5: once the expected record number exceeds `last_record_number`,
`next` returns `None` with the state untouched and without reading any bytes
(the result does not depend on the source at all); consequently every record
the stream yields has `number ≤ last_record_number` (a yielded record passed
both the bound check and the `assert_eq!(record.number, self.curr)`). -/
theorem records_next_bound :
    (∀ (source : List Nat) (s : RecState), s.last < s.curr →
      Records.next source s = .ok (none, s)) ∧
    (∀ (source : List Nat) (s : RecState) (r : Record) (s1 : RecState),
      Records.next source s = .ok (some r, s1) → r.number ≤ s.last) := by
  constructor
  · exact records_next_stop
  · intro source s r s1 h
    unfold Records.next at h
    by_cases h1 : s.last < s.curr
    · rw [if_pos h1] at h
      simp at h
    · rw [if_neg h1] at h
      by_cases h2 : s.pos + 40 ≤ source.length
      · rw [if_pos h2] at h
        by_cases h3 : ((source.drop s.pos).take 40).all (· == 0)
        · rw [if_pos h3] at h
          simp at h
        · rw [if_neg h3] at h
          split at h
          · split at h
            · rename_i r2 hnum
              simp only [RunResult.ok.injEq, Prod.mk.injEq, Option.some.injEq] at h
              obtain ⟨hr, _⟩ := h
              subst hr
              omega
            · simp at h
          · simp at h
      · rw [if_neg h2] at h
        simp at h

/-- Claim C9: with `last_record_number < u32::MAX` the iterator is fused:
whenever `next` returns `None` — because the bound check fired or because an
all-zero sentinel block set the expected number to `last + 1` (no overflow
under the hypothesis) — the resulting state satisfies `last < curr`, so every
subsequent call returns `None` with the state unchanged and without reading
from the source (the conclusion holds for every source whatsoever). -/
theorem records_next_fused (source : List Nat) (s s1 : RecState)
    (hlast : s.last < 4294967295)
    (h : Records.next source s = .ok (none, s1)) :
    ∀ source2 : List Nat, Records.next source2 s1 = .ok (none, s1) := by
  intro source2
  cases records_next_none_cases source s s1 h with
  | inl hc =>
    obtain ⟨h1, hs⟩ := hc
    subst hs
    exact records_next_stop _ _ h1
  | inr hc =>
    obtain ⟨h1, hs⟩ := hc
    subst hs
    exact records_next_stop _ _ (by simp; omega)

/-- Claim C6: an all-zero 40-byte block makes `next` return `None` and mark
the stream exhausted (`curr := last + 1`), and this early stop is not an
error (an `ok` result, not a panic) even when the expected number is still
within the declared range.  Concretely, on `sampleSource` — a header with
`first_record_number = 1`, `last_record_number = 3`, `record_len = 40`,
`timestamp_array_size = 8`, three well-formed records, then a 40-zero-byte
sentinel — iteration yields exactly the three records numbered 1, 2, 3 and
then `None`, not four; and on `sampleSource2` (same bytes but
`last_record_number = 5`) the sentinel itself stops iteration early at the
same three records. -/
theorem records_sentinel_stops_stream :
    (∀ (source : List Nat) (s : RecState),
      s.curr ≤ s.last → s.pos + 40 ≤ source.length →
      ((source.drop s.pos).take 40).all (· == 0) = true →
      Records.next source s =
        .ok (none, { curr := (s.last + 1) % 4294967296, last := s.last, pos := s.pos + 40 })) ∧
    PadFile.from_filename (some sampleSource) = .ok (.ok samplePadFile) ∧
    runRecords sampleSource 10 samplePadFile.records =
      .ok ([sampleRec1, sampleRec2, sampleRec3], ⟨4, 3, 230⟩) ∧
    (sampleRec1.number, sampleRec2.number, sampleRec3.number) = (1, 2, 3) ∧
    Records.next sampleSource ⟨4, 3, 230⟩ = .ok (none, ⟨4, 3, 230⟩) ∧
    PadFile.from_filename (some sampleSource2) = .ok (.ok samplePadFile2) ∧
    runRecords sampleSource2 10 samplePadFile2.records =
      .ok ([sampleRec1, sampleRec2, sampleRec3], ⟨6, 5, 270⟩) := by
  refine ⟨fun source s h1 h2 h3 =>
    records_next_sentinel_eq source s (by omega) h2 h3, rfl, ?_, rfl, ?_, rfl, ?_⟩
  · rfl
  · rfl
  · rfl

/-! Record decoding: bit arithmetic bridges and the byte-level round trip. -/

theorem u32_hi_lo_to_u64_eq (hi lo : Nat) (h : lo < 4294967296) :
    u32_hi_lo_to_u64 hi lo = 4294967296 * hi + lo := by
  unfold u32_hi_lo_to_u64
  rw [Nat.shiftLeft_eq, Nat.mul_comm]
  exact (Nat.mul_add_lt_is_or (i := 32) h hi).symm

theorem metadata_info_split (mi : Nat) (h : mi < 65536) :
    (if ((mi &&& 32768) != 0) = true then 32768 else 0) + (mi &&& 32767) = mi := by
  have h1 : mi &&& 32767 = mi % 32768 := by
    rw [show (32767 : Nat) = 2 ^ 15 - 1 from rfl]
    exact Nat.and_pow_two_sub_one_eq_mod mi 15
  have h2 : mi &&& 32768 = (mi.testBit 15).toNat * 32768 := by
    rw [show (32768 : Nat) = 2 ^ 15 from rfl]
    exact Nat.and_two_pow mi 15
  have h3 : mi.testBit 15 = decide (mi / 32768 % 2 = 1) := Nat.testBit_to_div_mod
  rw [h1, h2, h3]
  by_cases hbit : mi / 32768 % 2 = 1
  · simp only [hbit, decide_True, Bool.toNat_true, Nat.one_mul]
    norm_num
    omega
  · simp only [hbit, decide_False, Bool.toNat_false, Nat.zero_mul]
    norm_num
    omega

/-- A concrete 40-byte record encoding exercising the claim's example values:
`count_hi = 0xFFFFFFFF`, `count_lo = 0x00000001` and
`metadata_info = 0x8000 ||| 0x1234 = 0x9234` (bytes `0x34, 0x92`). -/
def exampleRecordBytes : List Nat :=
  [1,0,0,0] ++ [0,0,0,0] ++ [255,255,255,255] ++ [1,0,0,0] ++ List.replicate 8 0 ++
    [0,0] ++ [52,146] ++ [0,0,0,0] ++ List.replicate 8 0

/-- The record decoded from `exampleRecordBytes`: the 64-bit reconstruction
gives `0xFFFFFFFF00000001` and the bit-split gives
`extra_metadata_present = true`, `metadata_offset = 0x1234`. -/
def exampleRecord : Record :=
  { number := 1, data_len := 0, count := 18446744069414584321, timestamp_ns := 0,
    lfsr := 0, extra_metadata_present := true, metadata_offset := 4660, flags := 0,
    data_offset := 0 }

/-- Claim C2: on every 40-byte input, `Record::from_slice` extracts the eleven
little-endian fields in wire order, reconstructs `count`, `timestamp_ns` and
`data_offset` as `(hi as u64) << 32 | (lo as u64)`, splits `metadata_info`
into the top bit and the low 15 bits, and every field round-trips exactly
against re-encoding; the boundary examples `hi = 0xFFFFFFFF, lo = 0x00000001
-> 0xFFFFFFFF00000001` and `metadata_info = 0x8000 ||| 0x1234 -> (true,
0x1234)` hold concretely. -/
theorem record_from_slice_le_roundtrip
    (b0 b1 b2 b3 b4 b5 b6 b7 b8 b9 b10 b11 b12 b13 b14 b15 b16 b17 b18 b19 b20 b21 b22 b23 b24 b25 b26 b27 b28 b29 b30 b31 b32 b33 b34 b35 b36 b37 b38 b39 : Nat)
    (h : b0 < 256 ∧ b1 < 256 ∧ b2 < 256 ∧ b3 < 256 ∧ b4 < 256 ∧ b5 < 256 ∧ b6 < 256 ∧ b7 < 256 ∧ b8 < 256 ∧ b9 < 256 ∧ b10 < 256 ∧ b11 < 256 ∧ b12 < 256 ∧ b13 < 256 ∧ b14 < 256 ∧ b15 < 256 ∧ b16 < 256 ∧ b17 < 256 ∧ b18 < 256 ∧ b19 < 256 ∧ b20 < 256 ∧ b21 < 256 ∧ b22 < 256 ∧ b23 < 256 ∧ b24 < 256 ∧ b25 < 256 ∧ b26 < 256 ∧ b27 < 256 ∧ b28 < 256 ∧ b29 < 256 ∧ b30 < 256 ∧ b31 < 256 ∧ b32 < 256 ∧ b33 < 256 ∧ b34 < 256 ∧ b35 < 256 ∧ b36 < 256 ∧ b37 < 256 ∧ b38 < 256 ∧ b39 < 256) :
    Record.from_slice [b0, b1, b2, b3, b4, b5, b6, b7, b8, b9, b10, b11, b12, b13, b14, b15, b16, b17, b18, b19, b20, b21, b22, b23, b24, b25, b26, b27, b28, b29, b30, b31, b32, b33, b34, b35, b36, b37, b38, b39] =
      .ok (some
        { number := b0 + 256 * b1 + 65536 * b2 + 16777216 * b3,
          data_len := b4 + 256 * b5 + 65536 * b6 + 16777216 * b7,
          count := u32_hi_lo_to_u64 (b8 + 256 * b9 + 65536 * b10 + 16777216 * b11) (b12 + 256 * b13 + 65536 * b14 + 16777216 * b15),
          timestamp_ns := u32_hi_lo_to_u64 (b16 + 256 * b17 + 65536 * b18 + 16777216 * b19) (b20 + 256 * b21 + 65536 * b22 + 16777216 * b23),
          lfsr := b24 + 256 * b25,
          extra_metadata_present := ((b26 + 256 * b27) &&& 32768) != 0,
          metadata_offset := (b26 + 256 * b27) &&& 32767,
          flags := b28 + 256 * b29 + 65536 * b30 + 16777216 * b31,
          data_offset := u32_hi_lo_to_u64 (b32 + 256 * b33 + 65536 * b34 + 16777216 * b35) (b36 + 256 * b37 + 65536 * b38 + 16777216 * b39) }) ∧
    encodeRecord
        { number := b0 + 256 * b1 + 65536 * b2 + 16777216 * b3,
          data_len := b4 + 256 * b5 + 65536 * b6 + 16777216 * b7,
          count := u32_hi_lo_to_u64 (b8 + 256 * b9 + 65536 * b10 + 16777216 * b11) (b12 + 256 * b13 + 65536 * b14 + 16777216 * b15),
          timestamp_ns := u32_hi_lo_to_u64 (b16 + 256 * b17 + 65536 * b18 + 16777216 * b19) (b20 + 256 * b21 + 65536 * b22 + 16777216 * b23),
          lfsr := b24 + 256 * b25,
          extra_metadata_present := ((b26 + 256 * b27) &&& 32768) != 0,
          metadata_offset := (b26 + 256 * b27) &&& 32767,
          flags := b28 + 256 * b29 + 65536 * b30 + 16777216 * b31,
          data_offset := u32_hi_lo_to_u64 (b32 + 256 * b33 + 65536 * b34 + 16777216 * b35) (b36 + 256 * b37 + 65536 * b38 + 16777216 * b39) } =
      [b0, b1, b2, b3, b4, b5, b6, b7, b8, b9, b10, b11, b12, b13, b14, b15, b16, b17, b18, b19, b20, b21, b22, b23, b24, b25, b26, b27, b28, b29, b30, b31, b32, b33, b34, b35, b36, b37, b38, b39] ∧
    u32_hi_lo_to_u64 4294967295 1 = 18446744069414584321 ∧
    Record.from_slice exampleRecordBytes = .ok (some exampleRecord) := by
  obtain ⟨h0, h1, h2, h3, h4, h5, h6, h7, h8, h9, h10, h11, h12, h13, h14, h15, h16, h17, h18, h19, h20, h21, h22, h23, h24, h25, h26, h27, h28, h29, h30, h31, h32, h33, h34, h35, h36, h37, h38, h39⟩ := h
  refine ⟨rfl, ?_, by decide, by decide⟩
  have e1 := u32_hi_lo_to_u64_eq (b8 + 256 * b9 + 65536 * b10 + 16777216 * b11) (b12 + 256 * b13 + 65536 * b14 + 16777216 * b15) (by omega)
  have e2 := u32_hi_lo_to_u64_eq (b16 + 256 * b17 + 65536 * b18 + 16777216 * b19) (b20 + 256 * b21 + 65536 * b22 + 16777216 * b23) (by omega)
  have e3 := u32_hi_lo_to_u64_eq (b32 + 256 * b33 + 65536 * b34 + 16777216 * b35) (b36 + 256 * b37 + 65536 * b38 + 16777216 * b39) (by omega)
  have e4 := metadata_info_split (b26 + 256 * b27) (by omega)
  simp only [encodeRecord, le2, le4, e1, e2, e3, e4, List.cons_append, List.nil_append,
    List.cons.injEq, and_true]
  omega

/-! The payload correlator cursor initialization (claim C1). -/

/-- Claim C1, counterexample: on `sampleSource` (whose header has
`record_data_offset = 270`), the `RecordReader` built by
`PadFile::from_filename` has `curr_data_offset = 0`, not `record_data_offset`,
and the first fetch's relative seek delta for the first record equals
`record.data_offset - 0`, not `record.data_offset - record_data_offset`. -/
theorem payload_cursor_init_counterexample :
    PadFile.from_filename (some sampleSource) = .ok (.ok samplePadFile) ∧
    samplePadFile.header.record_data_offset = 270 ∧
    samplePadFile.record_reader.curr_data_offset ≠
      (samplePadFile.header.record_data_offset : Int) ∧
    RecordReader.seek_delta samplePadFile.record_reader sampleRec1 ≠
      (sampleRec1.data_offset : Int) - (samplePadFile.header.record_data_offset : Int) := by
  exact ⟨rfl, rfl, by decide, by decide⟩

/-- Claim C1 as amended: `curr_data_offset` is initialized to `0` (the data
cursor itself is pre-seeked to `record_data_offset`, so record `data_offset`
values are interpreted relative to the payload region start), and therefore
the first fetch's relative seek delta equals `record.data_offset - 0 =
record.data_offset`. -/
theorem payload_cursor_init_zero (file : Option (List Nat)) (pf : PadFileState)
    (h : PadFile.from_filename file = .ok (.ok pf)) :
    pf.record_reader.curr_data_offset = 0 ∧
    ∀ record : Record,
      RecordReader.seek_delta pf.record_reader record = (record.data_offset : Int) := by
  unfold PadFile.from_filename at h
  split at h
  · exact absurd (RunResult.ok.inj h) (by simp)
  · split at h
    · split at h
      · split at h
        · simp only [RunResult.ok.injEq, Except.ok.injEq] at h
          subst h
          exact ⟨rfl, fun record => by simp [RecordReader.seek_delta]⟩
        · exact RunResult.noConfusion h
      · exact RunResult.noConfusion h
    · exact RunResult.noConfusion h

theorem payload_cursor_init_zero_witness :
    samplePadFile.record_reader.curr_data_offset = 0 ∧
    RecordReader.seek_delta samplePadFile.record_reader sampleRec2 =
      (sampleRec2.data_offset : Int) := by
  have h := payload_cursor_init_zero (some sampleSource) samplePadFile rfl
  exact ⟨h.1, h.2 sampleRec2⟩

/-! Equivalence of the two versions' truncated-fetch read lengths (claim C10). -/

/-- A 40-byte record encoding with `metadata_info = 0x8000` (top bit set, low
15 bits zero) and `data_len = 7`: the two library versions disagree on the
truncated read length. -/
def c10Bytes : List Nat :=
  [0,0,0,0] ++ [7,0,0,0] ++ List.replicate 16 0 ++ [0,0] ++ [0,128] ++
    List.replicate 12 0

/-- `c10Bytes` decoded by the older version. -/
def c10RecordOld : RecordOld :=
  { number := 0, data_len := 7, count := 0, timestamp_ns := 0, lfsr := 0,
    data_valid := true, data_valid_count := 0, flags := 0, data_offset := 0 }

/-- `c10Bytes` decoded by the current version. -/
def c10RecordNew : Record :=
  { number := 0, data_len := 7, count := 0, timestamp_ns := 0, lfsr := 0,
    extra_metadata_present := true, metadata_offset := 0, flags := 0, data_offset := 0 }

/-- Claim C10, counterexample: for the record encoded by `c10Bytes`
(`metadata_info = 0x8000`, `data_len = 7`), the older version's truncated
fetch reads `data_valid_count = 0` bytes (because the top bit is set) while
the current version reads `data_len = 7` bytes (because the low 15 bits are
zero) — the two read lengths differ. -/
theorem data_read_len_equiv_counterexample :
    RecordOld.from_slice c10Bytes = .ok (some c10RecordOld) ∧
    Record.from_slice c10Bytes = .ok (some c10RecordNew) ∧
    RecordReaderOld.data_read_len c10RecordOld true = 0 ∧
    RecordReader.data_read_len c10RecordNew true = 7 ∧
    RecordReaderOld.data_read_len c10RecordOld true ≠
      RecordReader.data_read_len c10RecordNew true := by
  exact ⟨rfl, rfl, by decide, by decide, by decide⟩

/-- Claim C10 as amended: for records decoded from the same slice, the two
versions' truncated read lengths agree exactly for those records whose
`metadata_info` has the top bit set if and only if its low 15 bits are
nonzero (`data_valid = true ↔ metadata_offset > 0`); in general they can
differ. -/
theorem data_read_len_equiv_amended (input : List Nat) (ro : RecordOld) (rn : Record)
    (hOld : RecordOld.from_slice input = .ok (some ro))
    (hNew : Record.from_slice input = .ok (some rn))
    (hAgree : ro.data_valid = true ↔ 0 < rn.metadata_offset) :
    RecordReaderOld.data_read_len ro true = RecordReader.data_read_len rn true := by
  cases hp : recordFields input with
  | done rest o =>
    simp only [RecordOld.from_slice, hp, RunResult.ok.injEq, Option.some.injEq] at hOld
    simp only [Record.from_slice, hp, RunResult.ok.injEq, Option.some.injEq] at hNew
    subst hOld
    subst hNew
    by_cases hm : 0 < o.2.2.2.2.2.2.2.1 &&& 32767
    · have hv : ((o.2.2.2.2.2.2.2.1 &&& 32768) != 0) = true := hAgree.mpr hm
      unfold RecordReaderOld.data_read_len RecordReader.data_read_len
      rw [if_pos ⟨rfl, hv⟩, if_pos ⟨rfl, hm⟩]
    · have hv : ¬ ((o.2.2.2.2.2.2.2.1 &&& 32768) != 0) = true := fun hc => hm (hAgree.mp hc)
      unfold RecordReaderOld.data_read_len RecordReader.data_read_len
      rw [if_neg (fun hc => hv hc.2), if_neg (fun hc => hm hc.2)]
  | incomplete n => simp [RecordOld.from_slice, hp] at hOld
  | error => simp [RecordOld.from_slice, hp] at hOld

/-- A 40-byte record encoding with `metadata_info = 0x8005` (top bit set and
low 15 bits nonzero), where the two versions agree. -/
def c10WitnessBytes : List Nat :=
  [0,0,0,0] ++ [7,0,0,0] ++ List.replicate 16 0 ++ [0,0] ++ [5,128] ++
    List.replicate 12 0

/-- `c10WitnessBytes` decoded by the older version. -/
def c10WitnessOld : RecordOld :=
  { c10RecordOld with data_valid_count := 5 }

/-- `c10WitnessBytes` decoded by the current version. -/
def c10WitnessNew : Record :=
  { c10RecordNew with metadata_offset := 5 }

theorem data_read_len_equiv_amended_witness :
    RecordReaderOld.data_read_len c10WitnessOld true =
      RecordReader.data_read_len c10WitnessNew true :=
  data_read_len_equiv_amended c10WitnessBytes c10WitnessOld c10WitnessNew rfl rfl
    (by decide)

/-! Witnesses: the hypothesis-bearing claim theorems applied at concrete
inputs. -/

theorem record_from_slice_le_roundtrip_witness :
    Record.from_slice exampleRecordBytes = .ok (some exampleRecord) ∧
    encodeRecord exampleRecord = exampleRecordBytes := by
  have h := record_from_slice_le_roundtrip 1 0 0 0 0 0 0 0 255 255 255 255 1 0 0 0
    0 0 0 0 0 0 0 0 0 0 52 146 0 0 0 0 0 0 0 0 0 0 0 0 (by decide)
  exact ⟨h.1, h.2.1⟩

theorem from_bufreader_consumes_buffer_witness :
    headerLoopFuel sampleSource 0 284 0 0 = some (.success sampleHeaderV [] 110) ∧
    ([] : List Nat) = [] :=
  ⟨rfl, from_bufreader_consumes_buffer 284 sampleSource 0 sampleHeaderV [] 110 rfl⟩

theorem records_next_bound_witness :
    Records.next [] ⟨4, 3, 0⟩ = .ok (none, (⟨4, 3, 0⟩ : RecState)) ∧
    sampleRec1.number ≤ 3 :=
  ⟨records_next_bound.1 [] ⟨4, 3, 0⟩ (by decide),
   records_next_bound.2 sampleSource ⟨1, 3, 110⟩ sampleRec1 ⟨2, 3, 150⟩ rfl⟩

theorem records_sentinel_stops_stream_witness :
    Records.next sampleSource2 ⟨4, 5, 230⟩ = .ok (none, (⟨6, 5, 270⟩ : RecState)) :=
  records_sentinel_stops_stream.1 sampleSource2 ⟨4, 5, 230⟩ (by decide) (by decide)
    (by decide)

theorem record_from_slice_never_none_witness :
    (∃ r : Record, Record.from_slice exampleRecordBytes = .ok (some r)) ∧
    Record.from_slice [0, 1, 2] = .panic :=
  ⟨record_from_slice_never_none.1 exampleRecordBytes (by decide),
   record_from_slice_never_none.2.1 [0, 1, 2] (by decide)⟩

theorem records_next_fused_witness :
    Records.next [9, 9, 9] ⟨4, 3, 0⟩ = .ok (none, (⟨4, 3, 0⟩ : RecState)) :=
  records_next_fused [] ⟨4, 3, 0⟩ ⟨4, 3, 0⟩ (by decide) (by decide) [9, 9, 9]

theorem from_bufreader_terminates_witness :
    ∃ r : LoopResult, PadHeader.from_bufreader sampleSource 0 = some r :=
  from_bufreader_terminates sampleSource 0

theorem from_filename_error_taxonomy_witness :
    PadFile.from_filename none = .ok (.error ()) ∧
    parseHeader sampleSource ≠ .error ∧
    headerLoopFuel sampleSource 0 284 0 0 ≠ some .malformed :=
  ⟨from_filename_error_taxonomy.1, from_filename_error_taxonomy.2.1 sampleSource,
   from_filename_error_taxonomy.2.2 sampleSource 0 284 0 0⟩
